import Mathlib

/-!
Verification of the recursive ray tracer in `Ray Tracing/Main.cpp`.

The C++ source is shallowly embedded over exact rationals (`ℚ`): every
`float` of the source becomes a `ℚ`, so the algebraic and branching
structure of the program is captured exactly, while the two library
functions whose values are not rational (`sqrt` and `pow`) are supplied
by an explicit `MathOps` record of uninterpreted functions.  Theorems
that depend on the numerical meaning of `sqrt` state the needed facts
(`0 ≤ s`, `s * s = x`) as hypotheses.

Structures, field names and the order of operations follow the source
(`struct Ray`, `Sphere::Intersect`, `Triangle::Intersect`, `Raycast`,
`RayTrace`, `Image::SetColor`) line by line.  The C++ abstract base
class `SceneObject` with its virtual `Intersect` member is modelled as a
record holding the material together with the intersection function.
Out-parameters (`outIntersectionPoint`, `outIntersectionNormal`) are
returned as an `Option (Vec3 × Vec3)` which is `none` exactly on the
code paths that do not write them.
-/

/-- `glm::vec3`, with exact rational components. -/
structure Vec3 where
  x : ℚ
  y : ℚ
  z : ℚ
  deriving DecidableEq, Repr

/-- `glm::vec4` (used only for light positions, `w` selects the light kind). -/
structure Vec4 where
  x : ℚ
  y : ℚ
  z : ℚ
  w : ℚ
  deriving DecidableEq, Repr

namespace Vec3

instance : Zero Vec3 := ⟨⟨0, 0, 0⟩⟩

instance : Add Vec3 := ⟨fun a b => ⟨a.x + b.x, a.y + b.y, a.z + b.z⟩⟩

instance : Sub Vec3 := ⟨fun a b => ⟨a.x - b.x, a.y - b.y, a.z - b.z⟩⟩

instance : Neg Vec3 := ⟨fun a => ⟨-a.x, -a.y, -a.z⟩⟩

/-- Componentwise product, as `glm`'s `vec3 * vec3`. -/
instance : Mul Vec3 := ⟨fun a b => ⟨a.x * b.x, a.y * b.y, a.z * b.z⟩⟩

/-- `float * vec3`. -/
instance : HMul ℚ Vec3 Vec3 := ⟨fun a v => ⟨a * v.x, a * v.y, a * v.z⟩⟩

/-- `vec3 * float`. -/
instance : HMul Vec3 ℚ Vec3 := ⟨fun v a => ⟨v.x * a, v.y * a, v.z * a⟩⟩

/-- `vec3 / float`. -/
instance : HDiv Vec3 ℚ Vec3 := ⟨fun v a => ⟨v.x / a, v.y / a, v.z / a⟩⟩

@[simp] theorem zero_x : (0 : Vec3).x = 0 := rfl

@[simp] theorem zero_y : (0 : Vec3).y = 0 := rfl

@[simp] theorem zero_z : (0 : Vec3).z = 0 := rfl

@[simp] theorem add_x (a b : Vec3) : (a + b).x = a.x + b.x := rfl

@[simp] theorem add_y (a b : Vec3) : (a + b).y = a.y + b.y := rfl

@[simp] theorem add_z (a b : Vec3) : (a + b).z = a.z + b.z := rfl

@[simp] theorem div_x (a : Vec3) (q : ℚ) : (a / q).x = a.x / q := rfl

@[simp] theorem div_y (a : Vec3) (q : ℚ) : (a / q).y = a.y / q := rfl

@[simp] theorem div_z (a : Vec3) (q : ℚ) : (a / q).z = a.z / q := rfl

@[ext] theorem ext {a b : Vec3} (hx : a.x = b.x) (hy : a.y = b.y) (hz : a.z = b.z) :
    a = b := by
  cases a; cases b; simp_all

@[simp] theorem add_zero (a : Vec3) : a + 0 = a := by ext <;> simp

@[simp] theorem zero_add (a : Vec3) : 0 + a = a := by ext <;> simp

@[simp] theorem div_one (a : Vec3) : a / (1 : ℚ) = a := by ext <;> simp

/-- `glm::dot`. -/
def dot (a b : Vec3) : ℚ := a.x * b.x + a.y * b.y + a.z * b.z

/-- `glm::cross`. -/
def cross (a b : Vec3) : Vec3 :=
  ⟨a.y * b.z - a.z * b.y, a.z * b.x - a.x * b.z, a.x * b.y - a.y * b.x⟩

/-- `glm::reflect(I, N) = I - 2 * dot(N, I) * N`. -/
def reflect (i n : Vec3) : Vec3 := i - (2 * dot n i) * n

end Vec3

/-- The `xyz` part of a `vec4`, as in `glm::vec3(position)`. -/
def Vec4.xyz (v : Vec4) : Vec3 := ⟨v.x, v.y, v.z⟩

/-- The two irrational `<cmath>` functions used by the source, kept
uninterpreted: `sqrt x` and `pow x y`.  Theorems that need the value of
a square root take `0 ≤ sqrt d` and `sqrt d * sqrt d = d` as hypotheses. -/
structure MathOps where
  sqrt : ℚ → ℚ
  pow : ℚ → ℚ → ℚ

/-- `glm::length(v) = sqrt (dot v v)`. -/
def vecLength (ops : MathOps) (v : Vec3) : ℚ := ops.sqrt (v.dot v)

/-- `glm::normalize(v) = v / length v` (named to avoid the Mathlib `normalize`). -/
def glmNormalize (ops : MathOps) (v : Vec3) : Vec3 := v / ops.sqrt (v.dot v)

/-- `struct Ray`. -/
structure Ray where
  origin : Vec3
  direction : Vec3
  deriving DecidableEq, Repr

/-- `struct Material`. -/
structure Material where
  ambient : Vec3
  diffuse : Vec3
  specular : Vec3
  shininess : ℚ
  deriving DecidableEq, Repr

/-- Result of a virtual `Intersect` call: the returned `float`, plus the
out-parameters `(outIntersectionPoint, outIntersectionNormal)` when the
executed branch wrote them (`none` on branches that leave them untouched). -/
structure IntersectOut where
  t : ℚ
  geom : Option (Vec3 × Vec3)
  deriving DecidableEq, Repr

/-- `struct SceneObject`: a material together with the virtual
`Intersect` member function (the C++ abstract base class is modelled as
a record whose `intersect` field is the dispatched implementation). -/
structure SceneObject where
  material : Material
  intersect : Ray → IntersectOut

/-- `struct Light`. -/
structure Light where
  position : Vec4
  ambient : Vec3
  diffuse : Vec3
  specular : Vec3
  constant : ℚ
  linear : ℚ
  quadratic : ℚ

/-- `struct Camera` (the ray tracer itself only reads `position`). -/
structure Camera where
  position : Vec3
  lookTarget : Vec3
  globalUp : Vec3
  fovY : ℚ
  focalLength : ℚ
  imageWidth : ℚ
  imageHeight : ℚ

/-- `struct Scene`. -/
structure Scene where
  objects : List SceneObject
  lights : List Light

/-- `struct IntersectionInfo`. -/
structure IntersectionInfo where
  incomingRay : Ray
  t : ℚ
  obj : Option SceneObject
  intersectionPoint : Vec3
  intersectionNormal : Vec3

/-! ## Sphere::Intersect -/

/-- `struct Sphere` (geometry part; the material lives in the enclosing
`SceneObject`). -/
structure SphereData where
  center : Vec3
  radius : ℚ
  deriving DecidableEq, Repr

/-- `b = glm::dot(m, d)` with `m = P - center`. -/
def sphereB (s : SphereData) (ray : Ray) : ℚ :=
  (ray.origin - s.center).dot ray.direction

/-- `c = glm::dot(m, m) - radius * radius`. -/
def sphereC (s : SphereData) (ray : Ray) : ℚ :=
  (ray.origin - s.center).dot (ray.origin - s.center) - s.radius * s.radius

/-- `checkIntersection = b * b - c`, the discriminant. -/
def sphereDisc (s : SphereData) (ray : Ray) : ℚ :=
  sphereB s ray * sphereB s ray - sphereC s ray

/-- `t1 = -b + sqrt(checkIntersection)`. -/
def sphereT1 (ops : MathOps) (s : SphereData) (ray : Ray) : ℚ :=
  -sphereB s ray + ops.sqrt (sphereDisc s ray)

/-- `t2 = -b - sqrt(checkIntersection)`. -/
def sphereT2 (ops : MathOps) (s : SphereData) (ray : Ray) : ℚ :=
  -sphereB s ray - ops.sqrt (sphereDisc s ray)

/-- The hit result at distance `t`: point `P + t * d`, normal
`normalize(point - center)`. -/
def sphereHitAt (ops : MathOps) (s : SphereData) (ray : Ray) (t : ℚ) : IntersectOut :=
  ⟨t, some (ray.origin + t * ray.direction,
            glmNormalize ops (ray.origin + t * ray.direction - s.center))⟩

/-- `Sphere::Intersect`, translated branch for branch from the source
(the locals `checkIntersection`, `t1`, `t2` are the top-level
abbreviations `sphereDisc`, `sphereT1`, `sphereT2`). -/
def Sphere.Intersect (ops : MathOps) (s : SphereData) (ray : Ray) : IntersectOut :=
  if sphereDisc s ray < 0 then
    ⟨-1, none⟩
  else if sphereDisc s ray = 0 then
    sphereHitAt ops s ray (sphereT1 ops s ray)
  else
    if sphereT1 ops s ray < 0 ∧ sphereT2 ops s ray < 0 then
      ⟨-1, none⟩
    else if (sphereT1 ops s ray < 0 ∧ sphereT2 ops s ray > 0) ∨
            (sphereT1 ops s ray > 0 ∧ sphereT2 ops s ray < 0) then
      if sphereT1 ops s ray > 0 then
        sphereHitAt ops s ray (sphereT1 ops s ray)
      else
        sphereHitAt ops s ray (sphereT2 ops s ray)
    else
      if sphereT1 ops s ray > sphereT2 ops s ray then
        sphereHitAt ops s ray (sphereT2 ops s ray)
      else
        sphereHitAt ops s ray (sphereT1 ops s ray)

/-! ## Triangle::Intersect -/

/-- `struct Triangle` (geometry part). -/
structure TriangleData where
  A : Vec3
  B : Vec3
  C : Vec3
  deriving DecidableEq, Repr

/-- `n = glm::cross(B - A, C - A)`. -/
def triN (tri : TriangleData) : Vec3 := (tri.B - tri.A).cross (tri.C - tri.A)

/-- `e = glm::cross(-direction, P - A)`. -/
def triE (tri : TriangleData) (ray : Ray) : Vec3 :=
  (-ray.direction).cross (ray.origin - tri.A)

/-- `f = glm::dot(-direction, n)`. -/
def triF (tri : TriangleData) (ray : Ray) : ℚ :=
  (-ray.direction).dot (triN tri)

/-- `t = dot(P - A, n) / f`. -/
def triT (tri : TriangleData) (ray : Ray) : ℚ :=
  (ray.origin - tri.A).dot (triN tri) / triF tri ray

/-- `u = dot(C - A, e) / f`. -/
def triU (tri : TriangleData) (ray : Ray) : ℚ :=
  (tri.C - tri.A).dot (triE tri ray) / triF tri ray

/-- `v = dot(-(B - A), e) / f`. -/
def triV (tri : TriangleData) (ray : Ray) : ℚ :=
  (-(tri.B - tri.A)).dot (triE tri ray) / triF tri ray

/-- `Triangle::Intersect`, translated branch for branch from the source. -/
def Triangle.Intersect (ops : MathOps) (tri : TriangleData) (ray : Ray) : IntersectOut :=
  if triT tri ray ≤ 0 then
    ⟨-1, none⟩
  else
    if triU tri ray + triV tri ray ≤ 1 ∧ triU tri ray > 0 ∧ triV tri ray > 0 ∧
        triF tri ray > 0 then
      ⟨triT tri ray, some (ray.origin + triT tri ray * ray.direction,
                glmNormalize ops ((tri.B - tri.A).cross (tri.C - tri.A)))⟩
    else
      ⟨-1, none⟩

/-! ## Raycast -/

/-- The per-object body of the first loop in `Raycast`: call the virtual
`Intersect`, set `obj` to `nullptr` when the returned distance is
negative, record the distance and the out-parameters.  Out-parameters
that the callee did not write model the default-constructed (junk)
`glm::vec3` as `0`. -/
def candidateFor (ray : Ray) (o : SceneObject) : IntersectionInfo :=
  let r := o.intersect ray
  { incomingRay := ray
    t := r.t
    obj := if r.t < 0 then none else some o
    intersectionPoint := (r.geom.map Prod.fst).getD 0
    intersectionNormal := (r.geom.map Prod.snd).getD 0 }

/-- The `IntersectionInfo ret` that `Raycast` returns when nothing was
hit: only `obj = nullptr` is set, every other field is the
default-constructed junk value (modelled as zeros). -/
def missInfo : IntersectionInfo :=
  { incomingRay := ⟨0, 0⟩, t := 0, obj := none
    intersectionPoint := 0, intersectionNormal := 0 }

/-- `intersections[i].t` as read by the selection loop (`i` is always in
bounds in the source; out of bounds yields a junk `0`). -/
def tAt (intersections : List IntersectionInfo) (i : ℕ) : ℚ :=
  ((intersections[i]?).map IntersectionInfo.t).getD 0

/-- One iteration of the selection loop of `Raycast`, acting on the pair
`(shortestDistance, index)`. -/
def selStep (intersections : List IntersectionInfo) (p : ℚ × ℕ) (i : ℕ) : ℚ × ℕ :=
  if p.1 < 0 ∧ tAt intersections i > 0 then (tAt intersections i, i)
  else if p.1 > tAt intersections i ∧ tAt intersections i > 0 then (tAt intersections i, i)
  else p

/-- The whole selection loop: `for (i = 0; i < intersections.size(); i++)`,
starting from `(intersections[0].t, 0)`. -/
def selLoop (intersections : List IntersectionInfo) (sd0 : ℚ) : ℚ × ℕ :=
  (List.range intersections.length).foldl (selStep intersections) (sd0, 0)

/-- Invariant of the selection loop of `Raycast` after its first `k`
iterations, for the state `p = (shortestDistance, index)`: the index is
in bounds and the distance is the `t` stored at the index; when the
distance is positive it is the least positive `t` among `t₀` and the
first `k` candidates; when it is negative, no update has happened (the
state is still `(t₀, 0)`) and none of the first `k` candidates has a
positive `t`. -/
def selInv (l : List IntersectionInfo) (k : ℕ) (p : ℚ × ℕ) : Prop :=
  p.2 < l.length ∧
  p.1 = tAt l p.2 ∧
  (0 < p.1 → (0 < tAt l 0 ∨ ∃ j, j < k ∧ 0 < tAt l j) ∧
    ∀ j, j < k → 0 < tAt l j → p.1 ≤ tAt l j) ∧
  (p.1 < 0 → p = (tAt l 0, 0) ∧ ∀ j, j < k → ¬ 0 < tAt l j)

/-- The `intersections` vector of `Raycast`: one candidate per scene
object, in order. -/
def intersectionsOf (ray : Ray) (scene : Scene) : List IntersectionInfo :=
  scene.objects.map (candidateFor ray)

/-- `Raycast`, translated statement for statement (`noIntersection` is
the `all`-test, `shortestDistance`/`index` the `selLoop` state).  The
unconditional read `intersections[0].t` — performed before the
`noIntersection` check — is undefined behaviour on an empty scene; the
embedding therefore returns an `Option`, with `none` exactly on that
out-of-bounds path. -/
def RaycastOpt (ray : Ray) (scene : Scene) : Option IntersectionInfo :=
  match (intersectionsOf ray scene)[0]? with
  | none => none
  | some c0 =>
    if (intersectionsOf ray scene).all (fun i => i.obj.isNone) then some missInfo
    else (intersectionsOf ray scene)[(selLoop (intersectionsOf ray scene) c0.t).2]?

/-- Total version of `Raycast` used by `RayTrace` (the source never calls
`Raycast` with an empty scene along a defined path; the junk value for
the undefined path is the all-null `missInfo`). -/
def Raycast (ray : Ray) (scene : Scene) : IntersectionInfo :=
  (RaycastOpt ray scene).getD missInfo

/-! ## RayTrace -/

/-- The background / miss colour `glm::vec3(0.33f, 0.6f, 0.75f)`. -/
def backgroundColor : Vec3 := ⟨33/100, 3/5, 3/4⟩

/-- Shadow ray of a point light: origin biased by `0.001f * normal`,
direction `normalize(lightPos - shadowRay.origin)`. -/
def pointShadowRay (ops : MathOps) (ret : IntersectionInfo) (light : Light) : Ray :=
  let o := ret.intersectionPoint + (1/1000 : ℚ) * ret.intersectionNormal
  ⟨o, glmNormalize ops (light.position.xyz - o)⟩

/-- `pointDistance = glm::length(lightPos - intersectionPoint)`. -/
def pointDistance (ops : MathOps) (ret : IntersectionInfo) (light : Light) : ℚ :=
  vecLength ops (light.position.xyz - ret.intersectionPoint)

/-- `attenuation = 1 / (constant + linear*d + quadratic*d*d)`. -/
def pointAttenuation (ops : MathOps) (ret : IntersectionInfo) (light : Light) : ℚ :=
  1 / (light.constant + light.linear * pointDistance ops ret light
        + light.quadratic * (pointDistance ops ret light * pointDistance ops ret light))

/-- Point-light ambient term `material.ambient * light.ambient * attenuation`. -/
def pointAmbient (ops : MathOps) (ret : IntersectionInfo) (obj : SceneObject)
    (light : Light) : Vec3 :=
  obj.material.ambient * light.ambient * pointAttenuation ops ret light

/-- `lightDir = normalize(lightPos - intersectionPoint)` of a point light. -/
def pointLightDir (ops : MathOps) (ret : IntersectionInfo) (light : Light) : Vec3 :=
  glmNormalize ops (light.position.xyz - ret.intersectionPoint)

/-- Point-light diffuse term
`max(dot(normal, lightDir), 0) * (material.diffuse * light.diffuse) * attenuation`. -/
def pointDiffuse (ops : MathOps) (ret : IntersectionInfo) (obj : SceneObject)
    (light : Light) : Vec3 :=
  max (ret.intersectionNormal.dot (pointLightDir ops ret light)) 0
    * (obj.material.diffuse * light.diffuse) * pointAttenuation ops ret light

/-- Point-light specular term, with `e = normalize(camera.position - point)`,
`reflect(lightDir, normal)` and `pow(max(dot(reflect, e), 0), shininess)`. -/
def pointSpecular (ops : MathOps) (camera : Camera) (ret : IntersectionInfo)
    (obj : SceneObject) (light : Light) : Vec3 :=
  let e := glmNormalize ops (camera.position - ret.intersectionPoint)
  let r := (pointLightDir ops ret light).reflect ret.intersectionNormal
  ops.pow (max (r.dot e) 0) obj.material.shininess
    * (obj.material.specular * light.specular) * pointAttenuation ops ret light

/-- Shadow ray of a directional light: origin biased by `0.0001f * normal`,
direction `normalize(-lightPos)`. -/
def dirShadowRay (ops : MathOps) (ret : IntersectionInfo) (light : Light) : Ray :=
  ⟨ret.intersectionPoint + (1/10000 : ℚ) * ret.intersectionNormal,
   glmNormalize ops (-light.position.xyz)⟩

/-- Directional-light ambient term `material.ambient * light.ambient`. -/
def dirAmbient (obj : SceneObject) (light : Light) : Vec3 :=
  obj.material.ambient * light.ambient

/-- `lightDir = normalize(lightPos)` of a directional light. -/
def dirLightDir (ops : MathOps) (light : Light) : Vec3 :=
  glmNormalize ops light.position.xyz

/-- Directional-light diffuse term
`max(dot(normal, -lightDir), 0) * (material.diffuse * light.diffuse)`. -/
def dirDiffuse (ops : MathOps) (ret : IntersectionInfo) (obj : SceneObject)
    (light : Light) : Vec3 :=
  max (ret.intersectionNormal.dot (-dirLightDir ops light)) 0
    * (obj.material.diffuse * light.diffuse)

/-- Directional-light specular term. -/
def dirSpecular (ops : MathOps) (camera : Camera) (ret : IntersectionInfo)
    (obj : SceneObject) (light : Light) : Vec3 :=
  let e := glmNormalize ops (camera.position - ret.intersectionPoint)
  let r := (dirLightDir ops light).reflect ret.intersectionNormal
  ops.pow (max (r.dot e) 0) obj.material.shininess
    * (obj.material.specular * light.specular)

/-- Reflection ray: origin biased by `0.001f * normal`, direction
`reflect(incomingRay.direction, intersectionNormal)`. -/
def reflectionRayOf (ret : IntersectionInfo) : Ray :=
  ⟨ret.intersectionPoint + (1/1000 : ℚ) * ret.intersectionNormal,
   ret.incomingRay.direction.reflect ret.intersectionNormal⟩

/-- `Kr = material.shininess / 128.0f`. -/
def reflectKr (obj : SceneObject) : ℚ := obj.material.shininess / 128

/-- The mutable locals of `RayTrace` that the per-light loop updates. -/
structure LightState where
  ambientValues : List Vec3
  diffuseValues : List Vec3
  specularValues : List Vec3
  finalAmbient : Vec3
  finalDiffuse : Vec3
  finalSpecular : Vec3
  finalColor : Vec3
  deriving DecidableEq, Repr

/-- All-zero initial `LightState` of `RayTrace`. -/
def initState : LightState := ⟨[], [], [], 0, 0, 0, 0⟩

/-- The tail of every iteration of the per-light loop (source lines
526–544): re-sum the three value lists into the running totals, divide
the ambient total by the number of collected ambient values, and add all
three totals into `finalColor`.  (With an empty `ambientValues` the
source divides by zero; over `ℚ` that division yields `0`.) -/
def resumStep (st : LightState) : LightState :=
  let finalAmbient := st.ambientValues.foldl (fun a b => a + b) st.finalAmbient
  let ambientLights : ℚ := st.ambientValues.length
  let finalAmbient := finalAmbient / ambientLights
  let finalDiffuse := st.diffuseValues.foldl (fun a b => a + b) st.finalDiffuse
  let finalSpecular := st.specularValues.foldl (fun a b => a + b) st.finalSpecular
  { st with
    finalAmbient := finalAmbient
    finalDiffuse := finalDiffuse
    finalSpecular := finalSpecular
    finalColor := st.finalColor + finalAmbient + finalDiffuse + finalSpecular }

/-- One iteration of the per-light loop of `RayTrace` (source lines
429–546).  `recur r` stands for the recursive call
`RayTrace(r, currentScene, camera, maxDepth - 1)`. -/
def lightStep (ops : MathOps) (scene : Scene) (camera : Camera)
    (ret : IntersectionInfo) (obj : SceneObject) (maxDepth : ℤ)
    (recur : Ray → Vec3) (st : LightState) (light : Light) : LightState :=
  let st1 :=
    if light.position.w = 1 then
      let shadowInfo := Raycast (pointShadowRay ops ret light) scene
      if shadowInfo.obj.isNone ∨ pointDistance ops ret light < shadowInfo.t then
        let st2 := { st with
          ambientValues := st.ambientValues ++ [pointAmbient ops ret obj light]
          diffuseValues := st.diffuseValues ++ [pointDiffuse ops ret obj light]
          specularValues := st.specularValues ++ [pointSpecular ops camera ret obj light] }
        if 0 ≤ maxDepth then
          { st2 with finalColor :=
              st2.finalColor + reflectKr obj * recur (reflectionRayOf ret) }
        else st2
      else
        { st with ambientValues := st.ambientValues ++ [pointAmbient ops ret obj light] }
    else if light.position.w = 0 then
      let shadowInfo := Raycast (dirShadowRay ops ret light) scene
      if shadowInfo.obj.isNone then
        let st2 := { st with
          ambientValues := st.ambientValues ++ [dirAmbient obj light]
          diffuseValues := st.diffuseValues ++ [dirDiffuse ops ret obj light]
          specularValues := st.specularValues ++ [dirSpecular ops camera ret obj light] }
        if 0 ≤ maxDepth then
          { st2 with finalColor :=
              st2.finalColor + reflectKr obj * recur (reflectionRayOf ret) }
        else st2
      else
        { st with ambientValues := st.ambientValues ++ [dirAmbient obj light] }
    else st
  resumStep st1

/-- `RayTrace`, embedded with an explicit structural fuel: `fuel` bounds
the number of nested body executions, and each recursive call passes
`maxDepth - 1` exactly as the source does.  `rayTrace_fuel_irrelevant`
shows that any `fuel ≥ (maxDepth+1).toNat + 1` gives the same value, so
the fuel is bookkeeping for Lean's termination checker, not behaviour. -/
def RayTraceFuel (ops : MathOps) : ℕ → Ray → Scene → Camera → ℤ → Vec3
  | 0, _, _, _, _ => 0
  | fuel + 1, ray, scene, camera, maxDepth =>
    match (Raycast ray scene).obj with
    | none => backgroundColor
    | some obj =>
      (scene.lights.foldl
        (lightStep ops scene camera (Raycast ray scene) obj maxDepth
          (fun r => RayTraceFuel ops fuel r scene camera (maxDepth - 1)))
        initState).finalColor

/-- `RayTrace(ray, scene, camera, maxDepth)`. -/
def RayTrace (ops : MathOps) (ray : Ray) (scene : Scene) (camera : Camera)
    (maxDepth : ℤ) : Vec3 :=
  RayTraceFuel ops ((maxDepth + 1).toNat + 1) ray scene camera maxDepth

/-- Modelled from the spec: one iteration of the per-light loop with the
reflection blocks removed — the "purely local Phong" contribution that
the spec's reflection-termination property compares against. -/
def lightStepPhong (ops : MathOps) (scene : Scene) (camera : Camera)
    (ret : IntersectionInfo) (obj : SceneObject) (st : LightState)
    (light : Light) : LightState :=
  let st1 :=
    if light.position.w = 1 then
      let shadowInfo := Raycast (pointShadowRay ops ret light) scene
      if shadowInfo.obj.isNone ∨ pointDistance ops ret light < shadowInfo.t then
        { st with
          ambientValues := st.ambientValues ++ [pointAmbient ops ret obj light]
          diffuseValues := st.diffuseValues ++ [pointDiffuse ops ret obj light]
          specularValues := st.specularValues ++ [pointSpecular ops camera ret obj light] }
      else
        { st with ambientValues := st.ambientValues ++ [pointAmbient ops ret obj light] }
    else if light.position.w = 0 then
      let shadowInfo := Raycast (dirShadowRay ops ret light) scene
      if shadowInfo.obj.isNone then
        { st with
          ambientValues := st.ambientValues ++ [dirAmbient obj light]
          diffuseValues := st.diffuseValues ++ [dirDiffuse ops ret obj light]
          specularValues := st.specularValues ++ [dirSpecular ops camera ret obj light] }
      else
        { st with ambientValues := st.ambientValues ++ [dirAmbient obj light] }
    else st
  resumStep st1

/-- Modelled from the spec: `RayTrace` restricted to its local Phong
part, with no reflection ray and no recursion. -/
def RayTracePhong (ops : MathOps) (ray : Ray) (scene : Scene) (camera : Camera) : Vec3 :=
  match (Raycast ray scene).obj with
  | none => backgroundColor
  | some obj =>
    (scene.lights.foldl (lightStepPhong ops scene camera (Raycast ray scene) obj)
      initState).finalColor

/-! ## Image -/

/-- `struct Image` (bytes stored as naturals `< 256`). -/
structure Image where
  data : List ℕ
  width : ℕ
  height : ℕ
  deriving DecidableEq, Repr

/-- `Image::ToChar`: clamp to `[0,1]`, scale by 255, then
`static_cast<unsigned char>` — truncation toward zero, i.e. `floor` of
the non-negative clamped value. -/
def ToChar (c : ℚ) : ℕ := (⌊min (max c 0) 1 * 255⌋).toNat

/-- `Image::SetColor`. -/
def SetColor (img : Image) (x y : ℕ) (color : Vec3) : Image :=
  let index := (y * img.width + x) * 3
  let d0 := img.data.set index (ToChar color.x)
  let d1 := d0.set (index + 1) (ToChar color.y)
  let d2 := d1.set (index + 2) (ToChar color.z)
  { img with data := d2 }

/-- Modelled from the spec: the `round(clamp(c,0,1)*255)` quantization
the spec's round-trip property asserts (round half away from zero,
which for the non-negative values at hand is `⌊x + 1/2⌋`). -/
def roundSpec (c : ℚ) : ℤ := ⌊min (max c 0) 1 * 255 + 1/2⌋

/-! ## Concrete fixtures used by witnesses and counterexamples -/

/-- Interpretation sending every `sqrt`/`pow` query to `1` (exact for the
inputs it is used on in the statements below). -/
def ops1 : MathOps := ⟨fun _ => 1, fun _ _ => 1⟩

/-- Interpretation sending every `sqrt`/`pow` query to `0`. -/
def ops0 : MathOps := ⟨fun _ => 0, fun _ _ => 0⟩

/-- The unit sphere at the origin. -/
def sphUnit : SphereData := ⟨⟨0, 0, 0⟩, 1⟩

/-- Ray starting on the unit sphere, moving tangentially: `Δ = 0`, single
root `-b = 0`. -/
def rayTan : Ray := ⟨⟨1, 0, 0⟩, ⟨0, 1, 0⟩⟩

/-- Ray starting on the unit sphere, moving inward: `Δ = 1`, roots `2` and `0`. -/
def rayIn : Ray := ⟨⟨0, 0, 1⟩, ⟨0, 0, -1⟩⟩

/-- Ray from `(0,0,5)` toward the unit sphere: `Δ = 1`, roots `6` and `4`. -/
def rayFar : Ray := ⟨⟨0, 0, 5⟩, ⟨0, 0, -1⟩⟩

/-- Ray from `(0,0,5)` pointing away from the unit sphere: roots `-4` and `-6`. -/
def rayAway : Ray := ⟨⟨0, 0, 5⟩, ⟨0, 0, 1⟩⟩

/-- Ray starting on the unit sphere, moving outward: `Δ = 1`, roots `0`
and `-2` (largest root exactly `0` with `Δ > 0`). -/
def rayOut : Ray := ⟨⟨0, 0, 1⟩, ⟨0, 0, 1⟩⟩

/-- The spec's test triangle `A=(-1,0,-1) B=(1,0,-1) C=(0,2,-1)`. -/
def triW : TriangleData := ⟨⟨-1, 0, -1⟩, ⟨1, 0, -1⟩, ⟨0, 2, -1⟩⟩

/-- Ray from `(0,1,5)` toward the test triangle. -/
def rayTri : Ray := ⟨⟨0, 1, 5⟩, ⟨0, 0, -1⟩⟩

/-- An all-ones material with shininess 128 (so that `Kr = 1`). -/
def matU : Material := ⟨⟨1, 1, 1⟩, ⟨1, 1, 1⟩, ⟨1, 1, 1⟩, 128⟩

/-- A scene object whose `Intersect` reports distance `t` with point
`(0,0,0)` and normal `(0,0,1)` for every ray. -/
def objConst (t : ℚ) : SceneObject := ⟨matU, fun _ => ⟨t, some (⟨0, 0, 0⟩, ⟨0, 0, 1⟩)⟩⟩

/-- Ray from `(0,0,5)` in direction `(0,0,-1)`. -/
def rayZ : Ray := ⟨⟨0, 0, 5⟩, ⟨0, 0, -1⟩⟩

/-- Scene whose first candidate has `t = 0` and whose second has `t = 5`. -/
def sceneZeroFive : Scene := ⟨[objConst 0, objConst 5], []⟩

/-- Scene with candidates at `t = 5` and `t = 3` (nearest positive is `3`). -/
def sceneFiveThree : Scene := ⟨[objConst 5, objConst 3], []⟩

/-- A point light (`w = 1`) at `(0,0,1/2)` with unit intensities and no
distance falloff. -/
def lightP : Light := ⟨⟨0, 0, 1/2, 1⟩, ⟨1, 1, 1⟩, ⟨1, 1, 1⟩, ⟨1, 1, 1⟩, 1, 0, 0⟩

/-- A directional light (`w = 0`) shining along `-z`. -/
def lightD : Light := ⟨⟨0, 0, -1, 0⟩, ⟨1, 1, 1⟩, ⟨1, 1, 1⟩, ⟨1, 1, 1⟩, 1, 0, 0⟩

/-- A light with `w = 7`, neither a point light nor a directional light. -/
def lightInvalid : Light := ⟨⟨0, 0, 0, 7⟩, ⟨1, 1, 1⟩, ⟨1, 1, 1⟩, ⟨1, 1, 1⟩, 1, 0, 0⟩

/-- A camera at `(0,0,5)`. -/
def camZ : Camera := ⟨⟨0, 0, 5⟩, ⟨0, 0, 0⟩, ⟨0, 1, 0⟩, 1, 1, 640, 480⟩

/-- One reflective object lit by one point light. -/
def sceneRefl : Scene := ⟨[objConst 2], [lightP]⟩

/-- One object and two directional lights (both always occluded by the
object itself, since its `Intersect` reports a hit for every ray). -/
def sceneTwoDir : Scene := ⟨[objConst 2], [lightD, lightD]⟩

/-- A 1×1 image with a zeroed 3-byte buffer. -/
def img1 : Image := ⟨List.replicate 3 0, 1, 1⟩

/-- A 2×2 image with a zeroed 12-byte buffer. -/
def img2 : Image := ⟨List.replicate 12 0, 2, 2⟩

/-! ## C3: sphere hits and non-positive roots -/

/-- C3, counterexample.  The claim says that whenever every real root of
the quadratic is ≤ 0 — including the tangent case `Δ = 0` with single
root `t = -b ≤ 0` — `Sphere::Intersect` returns a negative sentinel.
For the tangent ray `rayTan` on the unit sphere, `Δ = 0` and `-b = 0`
(the square root of `0` is computed exactly by `ops0`), so the single
root is `0 ≤ 0`; yet the function returns `0`, not a negative value, and
writes the out-parameters, i.e. it reports a (degenerate) hit at `t = 0`. -/
theorem sphere_tangent_zero_root_counterexample :
    sphereDisc sphUnit rayTan = 0 ∧ sphereB sphUnit rayTan = 0 ∧
    ops0.sqrt (sphereDisc sphUnit rayTan) = 0 ∧
    (Sphere.Intersect ops0 sphUnit rayTan).t = 0 ∧
    (Sphere.Intersect ops0 sphUnit rayTan).geom.isSome ∧
    ¬ (Sphere.Intersect ops0 sphUnit rayTan).t < 0 := by
  with_unfolding_all decide

/-- C3, amended.  Whenever every real root of the quadratic is `≤ 0`,
`Sphere::Intersect` returns a negative value — with one exception, the
tangent case `Δ = 0` with single root `t = -b = 0`, where it returns `0`
and writes the out-parameters (a degenerate hit at `t = 0` instead of a
negative sentinel; see the counterexample).  Exhaustively over the
non-positive-root cases (with the square root computed exactly where its
value matters): `Δ < 0` returns `⟨-1, none⟩`; `Δ = 0` with root
`-b < 0` returns that negative root; `Δ > 0` with largest root
`t1 = -b + √Δ ≤ 0` returns a negative value (for `t1 = 0` strictly the
smaller root `t2 < 0`, via the `min(t1,t2)` branch); and only `Δ = 0`
with `-b = 0` yields the `t = 0` hit. -/
theorem sphere_intersect_nonpositive_roots (ops : MathOps) (s : SphereData) (ray : Ray)
    (hnn : 0 ≤ ops.sqrt (sphereDisc s ray)) :
    (sphereDisc s ray < 0 → Sphere.Intersect ops s ray = ⟨-1, none⟩) ∧
    (sphereDisc s ray = 0 → ops.sqrt (sphereDisc s ray) = 0 → 0 < sphereB s ray →
      (Sphere.Intersect ops s ray).t < 0) ∧
    (0 < sphereDisc s ray →
      ops.sqrt (sphereDisc s ray) * ops.sqrt (sphereDisc s ray) = sphereDisc s ray →
      sphereT1 ops s ray ≤ 0 → (Sphere.Intersect ops s ray).t < 0) ∧
    (sphereDisc s ray = 0 → ops.sqrt (sphereDisc s ray) = 0 → sphereB s ray = 0 →
      Sphere.Intersect ops s ray = sphereHitAt ops s ray 0) := by
  refine ⟨fun hd => ?_, fun hd0 hsq0 hb => ?_, fun hdpos hsq ht1 => ?_,
    fun hd0 hsq0 hb => ?_⟩
  · unfold Sphere.Intersect
    rw [if_pos hd]
  · have hd1 : ¬ sphereDisc s ray < 0 := by
      rw [hd0]
      exact lt_irrefl 0
    unfold Sphere.Intersect
    rw [if_neg hd1, if_pos hd0]
    show sphereT1 ops s ray < 0
    have ht1v : sphereT1 ops s ray = -sphereB s ray := by
      unfold sphereT1
      rw [hsq0]
      ring
    rw [ht1v]
    linarith
  · have hsd : 0 < ops.sqrt (sphereDisc s ray) := by
      rcases lt_or_eq_of_le hnn with h | h
      · exact h
      · exfalso
        rw [← h] at hsq
        simp at hsq
        rw [← hsq] at hdpos
        exact lt_irrefl 0 hdpos
    have h21 : sphereT2 ops s ray < sphereT1 ops s ray := by
      unfold sphereT1 sphereT2
      linarith
    have ht2 : sphereT2 ops s ray < 0 := lt_of_lt_of_le h21 ht1
    have hd1 : ¬ sphereDisc s ray < 0 := by linarith
    have hd2 : ¬ sphereDisc s ray = 0 := ne_of_gt hdpos
    unfold Sphere.Intersect
    rw [if_neg hd1, if_neg hd2]
    rcases lt_or_eq_of_le ht1 with ht1lt | ht1eq
    · rw [if_pos ⟨ht1lt, ht2⟩]
      exact (by norm_num : (-1 : ℚ) < 0)
    · have hn1 : ¬ (sphereT1 ops s ray < 0 ∧ sphereT2 ops s ray < 0) := by
        rintro ⟨h1, _⟩
        rw [ht1eq] at h1
        exact lt_irrefl _ h1
      have hn2 : ¬ ((sphereT1 ops s ray < 0 ∧ sphereT2 ops s ray > 0) ∨
          (sphereT1 ops s ray > 0 ∧ sphereT2 ops s ray < 0)) := by
        rintro (⟨_, h2⟩ | ⟨h1, _⟩)
        · linarith
        · rw [ht1eq] at h1
          exact lt_irrefl _ h1
      rw [if_neg hn1, if_neg hn2, if_pos (by rw [ht1eq]; exact ht2)]
      exact ht2
  · have hd1 : ¬ sphereDisc s ray < 0 := by
      rw [hd0]
      exact lt_irrefl 0
    unfold Sphere.Intersect
    rw [if_neg hd1, if_pos hd0]
    have ht1v : sphereT1 ops s ray = 0 := by
      unfold sphereT1
      rw [hsq0, hb]
      ring
    rw [ht1v]

/-- C3, witness for the amended theorem at the reviewer-relevant boundary
`rayOut` (origin on the unit sphere moving outward: `Δ = 1 > 0`, largest
root `t1 = 0`, `t2 = -2`): the returned value is negative, as the third
conjunct states. -/
theorem sphere_intersect_nonpositive_roots_witness :
    (Sphere.Intersect ops1 sphUnit rayOut).t < 0 :=
  (sphere_intersect_nonpositive_roots ops1 sphUnit rayOut
    (by with_unfolding_all decide)).2.2.1 (by with_unfolding_all decide)
    (by with_unfolding_all decide) (by with_unfolding_all decide)

/-! ## C4: sphere with two distinct roots -/

/-- C4, counterexample.  The claim says that for `Δ > 0`, if exactly one
of the two roots is positive then `Sphere::Intersect` returns the unique
positive root.  For `rayIn` (origin on the unit sphere moving inward)
the roots are `t1 = 2 > 0` and `t2 = 0` — exactly one positive — and the
square root of `Δ = 1` is computed exactly by `ops1`; yet the function
returns `0` (the else-branch takes `min(t1,t2) = t2 = 0`), not the
positive root `2`. -/
theorem sphere_two_roots_counterexample :
    sphereDisc sphUnit rayIn = 1 ∧
    ops1.sqrt (sphereDisc sphUnit rayIn) = 1 ∧
    sphereT1 ops1 sphUnit rayIn = 2 ∧ sphereT2 ops1 sphUnit rayIn = 0 ∧
    (Sphere.Intersect ops1 sphUnit rayIn).t = 0 ∧
    (Sphere.Intersect ops1 sphUnit rayIn).t ≠ sphereT1 ops1 sphUnit rayIn := by
  with_unfolding_all decide

/-- C4, amended.  For `Δ > 0` with an exactly-computed square root
(`0 ≤ √Δ`, `√Δ·√Δ = Δ`), `Sphere::Intersect` returns: the sentinel
`⟨-1, none⟩` when both roots are strictly negative; the root `t1` (with
its point and normal) when `t1 > 0 > t2` strictly; and otherwise
`min(t1,t2) = t2` with its point and normal — so when one root is `0`
the returned value is `t2`, not the positive root.  The claim's
condition "exactly one root `> 0`" holds only with the other root
strictly negative. -/
theorem sphere_intersect_two_roots (ops : MathOps) (s : SphereData) (ray : Ray)
    (hd : 0 < sphereDisc s ray)
    (hnn : 0 ≤ ops.sqrt (sphereDisc s ray))
    (hsq : ops.sqrt (sphereDisc s ray) * ops.sqrt (sphereDisc s ray) = sphereDisc s ray) :
    (sphereT1 ops s ray < 0 ∧ sphereT2 ops s ray < 0 →
       Sphere.Intersect ops s ray = ⟨-1, none⟩) ∧
    (0 < sphereT1 ops s ray ∧ sphereT2 ops s ray < 0 →
       Sphere.Intersect ops s ray = sphereHitAt ops s ray (sphereT1 ops s ray)) ∧
    (¬ (sphereT1 ops s ray < 0 ∧ sphereT2 ops s ray < 0) →
     ¬ (0 < sphereT1 ops s ray ∧ sphereT2 ops s ray < 0) →
       Sphere.Intersect ops s ray = sphereHitAt ops s ray (sphereT2 ops s ray)) := by
  have hs : 0 < ops.sqrt (sphereDisc s ray) := by
    rcases lt_or_eq_of_le hnn with h | h
    · exact h
    · exfalso
      rw [← h] at hsq
      simp at hsq
      rw [← hsq] at hd
      exact lt_irrefl 0 hd
  have h21 : sphereT2 ops s ray < sphereT1 ops s ray := by
    unfold sphereT1 sphereT2
    linarith
  have hd1 : ¬ sphereDisc s ray < 0 := by linarith
  have hd2 : ¬ sphereDisc s ray = 0 := by linarith
  refine ⟨fun h => ?_, fun h => ?_, fun h1 h2 => ?_⟩
  · unfold Sphere.Intersect
    rw [if_neg hd1, if_neg hd2, if_pos h]
  · unfold Sphere.Intersect
    rw [if_neg hd1, if_neg hd2, if_neg (by rintro ⟨ha, hb⟩; linarith [h.1]),
        if_pos (Or.inr h), if_pos h.1]
  · have hor : ¬ ((sphereT1 ops s ray < 0 ∧ sphereT2 ops s ray > 0) ∨
                  (sphereT1 ops s ray > 0 ∧ sphereT2 ops s ray < 0)) := by
      rintro (⟨ha, hb⟩ | hab)
      · linarith
      · exact h2 hab
    unfold Sphere.Intersect
    rw [if_neg hd1, if_neg hd2, if_neg h1, if_neg hor, if_pos h21]

/-- C4, witness at `rayFar` (roots `6` and `4`, both positive: the
`min(t1,t2)` case), applying the amended theorem and evaluating the
result to `t = 4`, point `(0,0,1)`, normal `(0,0,1)`. -/
theorem sphere_intersect_two_roots_witness :
    Sphere.Intersect ops1 sphUnit rayFar = ⟨4, some (⟨0, 0, 1⟩, ⟨0, 0, 1⟩)⟩ := by
  have h := (sphere_intersect_two_roots ops1 sphUnit rayFar
    (by with_unfolding_all decide) (by with_unfolding_all decide)
    (by with_unfolding_all decide)).2.2
    (by with_unfolding_all decide) (by with_unfolding_all decide)
  rw [h]
  with_unfolding_all decide

/-! ## C5: triangle hit condition -/

/-- C5, confirmed.  For every triangle and ray with `f ≠ 0`:
`Triangle::Intersect` writes the out-parameters (reports a hit) iff
`t > 0 ∧ u > 0 ∧ v > 0 ∧ u+v ≤ 1 ∧ f > 0`; when that condition holds it
returns `t` together with point `origin + t·d` and the flat normal
`normalize(cross(B-A, C-A))`; in every other case it returns the
sentinel `⟨-1, none⟩`, so oppositely wound (back-facing, `f < 0`)
triangles are treated as non-intersecting. -/
theorem triangle_intersect_iff (ops : MathOps) (tri : TriangleData) (ray : Ray)
    (_hf : triF tri ray ≠ 0) :
    ((Triangle.Intersect ops tri ray).geom.isSome ↔
      (0 < triT tri ray ∧ 0 < triU tri ray ∧ 0 < triV tri ray ∧
       triU tri ray + triV tri ray ≤ 1 ∧ 0 < triF tri ray)) ∧
    ((0 < triT tri ray ∧ 0 < triU tri ray ∧ 0 < triV tri ray ∧
       triU tri ray + triV tri ray ≤ 1 ∧ 0 < triF tri ray) →
      Triangle.Intersect ops tri ray =
        ⟨triT tri ray, some (ray.origin + triT tri ray * ray.direction,
            glmNormalize ops ((tri.B - tri.A).cross (tri.C - tri.A)))⟩) ∧
    (¬ (0 < triT tri ray ∧ 0 < triU tri ray ∧ 0 < triV tri ray ∧
       triU tri ray + triV tri ray ≤ 1 ∧ 0 < triF tri ray) →
      Triangle.Intersect ops tri ray = ⟨-1, none⟩) := by
  by_cases hc : 0 < triT tri ray ∧ 0 < triU tri ray ∧ 0 < triV tri ray ∧
      triU tri ray + triV tri ray ≤ 1 ∧ 0 < triF tri ray
  · have he : Triangle.Intersect ops tri ray =
        ⟨triT tri ray, some (ray.origin + triT tri ray * ray.direction,
            glmNormalize ops ((tri.B - tri.A).cross (tri.C - tri.A)))⟩ := by
      unfold Triangle.Intersect
      rw [if_neg (not_le.mpr hc.1), if_pos ⟨hc.2.2.2.1, hc.2.1, hc.2.2.1, hc.2.2.2.2⟩]
    refine ⟨?_, fun _ => he, fun hn => absurd hc hn⟩
    rw [he]
    simp [hc]
  · have he : Triangle.Intersect ops tri ray = ⟨-1, none⟩ := by
      unfold Triangle.Intersect
      split_ifs with h1 h2
      · rfl
      · exact absurd ⟨not_le.mp h1, h2.2.1, h2.2.2.1, h2.1, h2.2.2.2⟩ hc
      · rfl
    refine ⟨?_, fun h => absurd h hc, fun _ => he⟩
    rw [he]
    simp [hc]

/-- C5, witness at the spec's test triangle (`f = 4`, `t = 6`,
`u = 1/4`, `v = 1/2`): the ray hits, and the returned record is as the
theorem states. -/
theorem triangle_intersect_iff_witness :
    Triangle.Intersect ops1 triW rayTri =
      ⟨6, some (⟨0, 1, -1⟩, glmNormalize ops1 ⟨0, 0, 4⟩)⟩ := by
  have h := (triangle_intersect_iff ops1 triW rayTri
    (by with_unfolding_all decide)).2.1 (by with_unfolding_all decide)
  rw [h]
  with_unfolding_all decide

/-! ## C7: SetColor quantization -/

/-- C7, counterexample.  The claim says each stored byte equals
`round(clamp(c,0,1)*255)`.  For channel value `1/2` the source computes
`static_cast<unsigned char>(0.5f * 255) = 127` (truncation), while
`round(127.5) = 128`: the stored byte disagrees with the claimed
rounding at this input. -/
theorem setcolor_round_counterexample :
    (SetColor img1 0 0 ⟨1/2, 0, 1⟩).data[0]? = some 127 ∧
    roundSpec (1/2) = 128 ∧ (127 : ℤ) ≠ 128 := by
  with_unfolding_all decide

/-- C7, amended.  For every in-range pixel, `SetColor` stores at offsets
`(y·width+x)·3 .. +2` the three bytes `ToChar c`, and `ToChar` is the
truncation `⌊clamp(c,0,1)·255⌋` (not `round`); the representative values
`-1, 0, 1/2, 1, 2` are stored as `0, 0, 127, 255, 255` (`1/2` giving
`127`, the lower of the spec's "127/128"). -/
theorem setcolor_stores_truncated_bytes (img : Image) (x y : ℕ) (c : Vec3)
    (hx : x < img.width) (hy : y < img.height)
    (hlen : img.data.length = img.width * img.height * 3) :
    ((SetColor img x y c).data[(y * img.width + x) * 3]? = some (ToChar c.x) ∧
     (SetColor img x y c).data[(y * img.width + x) * 3 + 1]? = some (ToChar c.y) ∧
     (SetColor img x y c).data[(y * img.width + x) * 3 + 2]? = some (ToChar c.z)) ∧
    (∀ q : ℚ, (ToChar q : ℤ) = ⌊min (max q 0) 1 * 255⌋) ∧
    (ToChar (-1) = 0 ∧ ToChar 0 = 0 ∧ ToChar (1/2) = 127 ∧
     ToChar 1 = 255 ∧ ToChar 2 = 255) := by
  have hidx : (y * img.width + x) * 3 + 2 < img.data.length := by
    rw [hlen]
    have h1 : y * img.width + x < img.height * img.width := by
      calc y * img.width + x < y * img.width + img.width := by omega
        _ = (y + 1) * img.width := by ring
        _ ≤ img.height * img.width := Nat.mul_le_mul_right _ (by omega)
    calc (y * img.width + x) * 3 + 2 < (y * img.width + x) * 3 + 3 := by omega
      _ = (y * img.width + x + 1) * 3 := by ring
      _ ≤ (img.height * img.width) * 3 := Nat.mul_le_mul_right _ (by omega)
      _ = img.width * img.height * 3 := by ring
  refine ⟨?_, ?_, by with_unfolding_all decide⟩
  · unfold SetColor
    have hi0 : (y * img.width + x) * 3 < img.data.length := by omega
    have hi1 : (y * img.width + x) * 3 + 1 < img.data.length := by omega
    refine ⟨?_, ?_, ?_⟩
    · rw [List.getElem?_set_ne (by omega), List.getElem?_set_ne (by omega),
          List.getElem?_set_self (by simpa using hi0)]
    · rw [List.getElem?_set_ne (by omega),
          List.getElem?_set_self (by simpa using hi1)]
    · rw [List.getElem?_set_self (by simpa using hidx)]
  · intro q
    unfold ToChar
    have h0 : (0 : ℚ) ≤ min (max q 0) 1 * 255 := by
      have : (0 : ℚ) ≤ min (max q 0) 1 := le_min (le_max_right q 0) (by norm_num)
      positivity
    rw [Int.toNat_of_nonneg (Int.le_floor.mpr (by exact_mod_cast h0))]

/-- C7, witness for the amended theorem on a concrete 2×2 image at pixel
`(1,1)` with colour `(-1, 1/2, 2)`. -/
theorem setcolor_stores_truncated_bytes_witness :
    ((SetColor img2 1 1 ⟨-1, 1/2, 2⟩).data[(1 * img2.width + 1) * 3]? =
        some (ToChar (-1)) ∧
     (SetColor img2 1 1 ⟨-1, 1/2, 2⟩).data[(1 * img2.width + 1) * 3 + 1]? =
        some (ToChar (1/2)) ∧
     (SetColor img2 1 1 ⟨-1, 1/2, 2⟩).data[(1 * img2.width + 1) * 3 + 2]? =
        some (ToChar 2)) ∧
    (∀ q : ℚ, (ToChar q : ℤ) = ⌊min (max q 0) 1 * 255⌋) ∧
    (ToChar (-1) = 0 ∧ ToChar 0 = 0 ∧ ToChar (1/2) = 127 ∧
     ToChar 1 = 255 ∧ ToChar 2 = 255) :=
  setcolor_stores_truncated_bytes img2 1 1 ⟨-1, 1/2, 2⟩
    (by with_unfolding_all decide) (by with_unfolding_all decide)
    (by with_unfolding_all decide)

/-! ## C9: the unchecked intersections[0] read in Raycast -/

/-- One selection-loop step keeps the running index inside the candidate
vector. -/
theorem selStep_idx_lt (l : List IntersectionInfo) (p : ℚ × ℕ) (i : ℕ)
    (hp : p.2 < l.length) (hi : i < l.length) : (selStep l p i).2 < l.length := by
  unfold selStep
  split_ifs <;> first | exact hi | exact hp

/-- Folding the selection step over in-range indices keeps the running
index inside the candidate vector. -/
theorem foldl_selStep_idx_lt (l : List IntersectionInfo) :
    ∀ (L : List ℕ), (∀ i ∈ L, i < l.length) → ∀ (p : ℚ × ℕ), p.2 < l.length →
      (L.foldl (selStep l) p).2 < l.length := by
  intro L
  induction L with
  | nil => exact fun _ p hp => hp
  | cons a L ih =>
    intro hmem p hp
    simp only [List.foldl_cons]
    exact ih (fun i hi => hmem i (List.mem_cons_of_mem _ hi)) _
      (selStep_idx_lt l p a hp (hmem a (List.mem_cons_self _ _)))

/-- The index produced by the whole selection loop is in bounds. -/
theorem selLoop_idx_lt (l : List IntersectionInfo) (sd0 : ℚ) (hlen : 0 < l.length) :
    (selLoop l sd0).2 < l.length := by
  unfold selLoop
  exact foldl_selStep_idx_lt l (List.range l.length)
    (fun i hi => List.mem_range.mp hi) _ hlen

/-- C9, confirmed.  `Raycast` reads `intersections[0]` (one candidate per
scene object) before checking whether anything was hit, so the access is
in bounds iff the scene has at least one primitive: in the total
`Option`-returning embedding `RaycastOpt`, every scene with a non-empty
object list yields `some` (the out-of-bounds branch is unreachable), and
every scene with an empty object list reaches it, yielding `none`. -/
theorem raycastOpt_some_iff_nonempty :
    (∀ (ray : Ray) (scene : Scene), scene.objects ≠ [] →
      (RaycastOpt ray scene).isSome) ∧
    (∀ (ray : Ray) (lights : List Light),
      RaycastOpt ray ⟨[], lights⟩ = none) := by
  constructor
  · intro ray scene hne
    have hlen : 0 < (intersectionsOf ray scene).length := by
      simpa [intersectionsOf, List.length_pos] using hne
    unfold RaycastOpt
    rw [List.getElem?_eq_getElem hlen]
    by_cases hni : (intersectionsOf ray scene).all (fun i => i.obj.isNone)
    · simp [hni]
    · have hidx := selLoop_idx_lt (intersectionsOf ray scene)
        ((intersectionsOf ray scene)[0]).t hlen
      simp only [hni, if_false, Bool.false_eq_true]
      rw [List.getElem?_eq_getElem hidx]
      simp
  · intro ray lights
    unfold RaycastOpt
    simp [intersectionsOf]

/-- C9, witness: a two-object scene yields `some`; the empty scene yields
`none`. -/
theorem raycastOpt_some_iff_nonempty_witness :
    (RaycastOpt rayZ sceneFiveThree).isSome ∧ RaycastOpt rayZ ⟨[], []⟩ = none :=
  ⟨raycastOpt_some_iff_nonempty.1 rayZ sceneFiveThree
      (List.cons_ne_nil _ _),
   raycastOpt_some_iff_nonempty.2 rayZ []⟩

/-! ## C10: lights with w not in {0, 1} -/

/-- C10, confirmed.  A light whose `position.w` is neither `1` nor `0`
matches neither branch of the per-light loop: its iteration pushes no
ambient, diffuse or specular term (the three value lists are unchanged),
and performs no `Raycast` (shadow ray) and no recursive call (reflection
ray) — the whole iteration depends on nothing but the running state, as
the second conjunct states by varying every other argument.  (The
iteration is not a no-op: the loop tail still re-sums the lists built by
earlier lights into the running totals.) -/
theorem lightStep_ignores_invalid_light (ops : MathOps) (scene : Scene)
    (camera : Camera) (ret : IntersectionInfo) (obj : SceneObject) (maxDepth : ℤ)
    (recur : Ray → Vec3) (st : LightState) (light : Light)
    (hw1 : light.position.w ≠ 1) (hw0 : light.position.w ≠ 0) :
    ((lightStep ops scene camera ret obj maxDepth recur st light).ambientValues =
        st.ambientValues ∧
     (lightStep ops scene camera ret obj maxDepth recur st light).diffuseValues =
        st.diffuseValues ∧
     (lightStep ops scene camera ret obj maxDepth recur st light).specularValues =
        st.specularValues) ∧
    (∀ (ops2 : MathOps) (scene2 : Scene) (camera2 : Camera)
        (ret2 : IntersectionInfo) (obj2 : SceneObject) (maxDepth2 : ℤ)
        (recur2 : Ray → Vec3),
      lightStep ops2 scene2 camera2 ret2 obj2 maxDepth2 recur2 st light =
        lightStep ops scene camera ret obj maxDepth recur st light) := by
  have hstep : ∀ (ops2 : MathOps) (scene2 : Scene) (camera2 : Camera)
      (ret2 : IntersectionInfo) (obj2 : SceneObject) (maxDepth2 : ℤ)
      (recur2 : Ray → Vec3),
      lightStep ops2 scene2 camera2 ret2 obj2 maxDepth2 recur2 st light =
        resumStep st := by
    intro ops2 scene2 camera2 ret2 obj2 maxDepth2 recur2
    unfold lightStep
    rw [if_neg hw1, if_neg hw0]
  refine ⟨?_, fun ops2 scene2 camera2 ret2 obj2 maxDepth2 recur2 =>
    (hstep ops2 scene2 camera2 ret2 obj2 maxDepth2 recur2).trans
      (hstep ops scene camera ret obj maxDepth recur).symm⟩
  rw [hstep ops scene camera ret obj maxDepth recur]
  unfold resumStep
  exact ⟨rfl, rfl, rfl⟩

/-- C10, witness at a concrete light with `w = 7` inside the point-light
scene, at depth `0` with an arbitrary recursion function. -/
theorem lightStep_ignores_invalid_light_witness :
    ((lightStep ops1 sceneRefl camZ missInfo (objConst 2) 0 (fun _ => 0)
        initState lightInvalid).ambientValues = initState.ambientValues ∧
     (lightStep ops1 sceneRefl camZ missInfo (objConst 2) 0 (fun _ => 0)
        initState lightInvalid).diffuseValues = initState.diffuseValues ∧
     (lightStep ops1 sceneRefl camZ missInfo (objConst 2) 0 (fun _ => 0)
        initState lightInvalid).specularValues = initState.specularValues) ∧
    (∀ (ops2 : MathOps) (scene2 : Scene) (camera2 : Camera)
        (ret2 : IntersectionInfo) (obj2 : SceneObject) (maxDepth2 : ℤ)
        (recur2 : Ray → Vec3),
      lightStep ops2 scene2 camera2 ret2 obj2 maxDepth2 recur2
          initState lightInvalid =
        lightStep ops1 sceneRefl camZ missInfo (objConst 2) 0 (fun _ => 0)
          initState lightInvalid) :=
  lightStep_ignores_invalid_light ops1 sceneRefl camZ missInfo (objConst 2) 0
    (fun _ => 0) initState lightInvalid
    (by with_unfolding_all decide) (by with_unfolding_all decide)

/-! ## C2 and C8: reflection recursion -/

/-- The per-light loop body calls its recursion argument only when
`0 ≤ maxDepth`, and then only on the reflection ray: two recursion
functions that agree there give equal steps. -/
theorem lightStep_recur_congr (ops : MathOps) (scene : Scene) (camera : Camera)
    (ret : IntersectionInfo) (obj : SceneObject) (maxDepth : ℤ)
    (recur1 recur2 : Ray → Vec3) (st : LightState) (light : Light)
    (h : 0 ≤ maxDepth → recur1 (reflectionRayOf ret) = recur2 (reflectionRayOf ret)) :
    lightStep ops scene camera ret obj maxDepth recur1 st light =
      lightStep ops scene camera ret obj maxDepth recur2 st light := by
  unfold lightStep
  split_ifs <;> first
    | rfl
    | (rename_i hdep
       rw [h hdep])

/-- With `maxDepth < 0` the reflection branch is dead and one loop body
step equals the spec's local-Phong step. -/
theorem lightStep_neg_depth_phong (ops : MathOps) (scene : Scene) (camera : Camera)
    (ret : IntersectionInfo) (obj : SceneObject) (maxDepth : ℤ)
    (recur : Ray → Vec3) (st : LightState) (light : Light)
    (hneg : maxDepth < 0) :
    lightStep ops scene camera ret obj maxDepth recur st light =
      lightStepPhong ops scene camera ret obj st light := by
  have hnd : ¬ (0 ≤ maxDepth) := not_le.mpr hneg
  unfold lightStep lightStepPhong
  split_ifs <;> rfl

/-- Two pointwise-equal fold functions fold equally. -/
theorem foldl_congr_fn {α β : Type} (f g : α → β → α)
    (h : ∀ a b, f a b = g a b) (L : List β) (a : α) :
    L.foldl f a = L.foldl g a := by
  have : f = g := funext fun a2 => funext fun b => h a2 b
  rw [this]

/-- C2, counterexample.  The claim says a call with `maxDepth = 0` spawns
no reflection ray and returns the purely local Phong colour.  In the
source the reflection guard is `maxDepth >= 0`, which is true at `0`:
for the concrete lit scene `sceneRefl` the depth-0 call returns
`(5,5,5)` — the local Phong `(5/2,5/2,5/2)` plus `Kr = 1` times the
colour of the recursive depth-(-1) call — differing from the local
Phong colour. -/
theorem raytrace_depth_zero_counterexample :
    RayTrace ops1 rayZ sceneRefl camZ 0 ≠ RayTracePhong ops1 rayZ sceneRefl camZ := by
  with_unfolding_all decide

/-- C2, amended.  A reflection ray is spawned whenever `maxDepth ≥ 0`, so
the recursion-free, purely-local-Phong return happens exactly for
`maxDepth < 0` (e.g. `-1`), not for `maxDepth = 0`: for every negative
depth, `RayTrace` equals the reflection-free `RayTracePhong`. -/
theorem raytrace_neg_depth_is_phong (ops : MathOps) (ray : Ray) (scene : Scene)
    (camera : Camera) (maxDepth : ℤ) (hneg : maxDepth < 0) :
    RayTrace ops ray scene camera maxDepth = RayTracePhong ops ray scene camera := by
  have hfuel : ∀ (fuel : ℕ) (r : Ray) (d : ℤ), d < 0 →
      RayTraceFuel ops (fuel + 1) r scene camera d = RayTracePhong ops r scene camera := by
    intro fuel r d hd
    unfold RayTraceFuel RayTracePhong
    cases hobj : (Raycast r scene).obj with
    | none => rfl
    | some obj =>
      exact congrArg LightState.finalColor
        (foldl_congr_fn _ _
          (fun st light => lightStep_neg_depth_phong ops scene camera
            (Raycast r scene) obj d _ st light hd) scene.lights initState)
  have hz : (maxDepth + 1).toNat = 0 := Int.toNat_of_nonpos (by omega)
  unfold RayTrace
  rw [hz]
  exact hfuel 0 ray maxDepth hneg

/-- C2, witness for the amended theorem at depth `-1` in the reflective
scene. -/
theorem raytrace_neg_depth_is_phong_witness :
    RayTrace ops1 rayZ sceneRefl camZ (-1) = RayTracePhong ops1 rayZ sceneRefl camZ :=
  raytrace_neg_depth_is_phong ops1 rayZ sceneRefl camZ (-1) (by decide)

/-- Any two fuels at least `(maxDepth+1).toNat + 1` (one body execution
per depth level `maxDepth, maxDepth-1, …, -1`) produce the same colour:
the recursion bottoms out through the depth guard, never through the
fuel. -/
theorem rayTraceFuel_congr (ops : MathOps) :
    ∀ (f1 : ℕ) (ray : Ray) (scene : Scene) (camera : Camera) (d : ℤ) (f2 : ℕ),
      (d + 1).toNat + 1 ≤ f1 → (d + 1).toNat + 1 ≤ f2 →
      RayTraceFuel ops f1 ray scene camera d = RayTraceFuel ops f2 ray scene camera d := by
  intro f1
  induction f1 with
  | zero => exact fun ray scene camera d f2 h1 h2 => absurd h1 (by omega)
  | succ g1 ih =>
    intro ray scene camera d f2 h1 h2
    cases f2 with
    | zero => exact absurd h2 (by omega)
    | succ g2 =>
      unfold RayTraceFuel
      cases hobj : (Raycast ray scene).obj with
      | none => rfl
      | some obj =>
        refine congrArg LightState.finalColor
          (foldl_congr_fn _ _ (fun st light => ?_) scene.lights initState)
        refine lightStep_recur_congr ops scene camera (Raycast ray scene) obj d
          _ _ st light (fun hd0 => ?_)
        exact ih (reflectionRayOf (Raycast ray scene)) scene camera (d - 1) g2
          (by omega) (by omega)

/-- C8, confirmed.  `RayTrace` terminates with nesting bounded by a
function of the initial `maxDepth` alone: every recursive call passes
`maxDepth - 1`, no recursive call is made once `maxDepth < 0` (the
`maxDepth >= 0` guard), and therefore the fuel-indexed embedding is
independent of the fuel once it covers the `(maxDepth+1).toNat + 1`
possible nesting levels — the depth budget is the sole termination
mechanism. -/
theorem raytrace_fuel_bound (ops : MathOps) (ray : Ray) (scene : Scene)
    (camera : Camera) (maxDepth : ℤ) (fuel : ℕ)
    (h : (maxDepth + 1).toNat + 1 ≤ fuel) :
    RayTraceFuel ops fuel ray scene camera maxDepth =
      RayTrace ops ray scene camera maxDepth := by
  unfold RayTrace
  exact rayTraceFuel_congr ops fuel ray scene camera maxDepth
    ((maxDepth + 1).toNat + 1) h (le_refl _)

/-- C8, witness: fuel 5 and the canonical fuel agree at `maxDepth = 1`
in the reflective scene. -/
theorem raytrace_fuel_bound_witness :
    RayTraceFuel ops1 5 rayZ sceneRefl camZ 1 = RayTrace ops1 rayZ sceneRefl camZ 1 :=
  raytrace_fuel_bound ops1 rayZ sceneRefl camZ 1 5 (by decide)

/-! ## C1: nearest-hit selection in Raycast -/

/-- The candidate's `t` is the value returned by the object's `Intersect`. -/
theorem candidateFor_t (ray : Ray) (o : SceneObject) :
    (candidateFor ray o).t = (o.intersect ray).t := rfl

/-- The candidate's `obj` is `nullptr` exactly for a negative `t`. -/
theorem candidateFor_obj (ray : Ray) (o : SceneObject) :
    (candidateFor ray o).obj =
      if (o.intersect ray).t < 0 then none else some o := rfl

/-- `obj.isNone` on a candidate means its `t` is negative. -/
theorem candidateFor_obj_isNone (ray : Ray) (o : SceneObject) :
    (candidateFor ray o).obj.isNone ↔ (o.intersect ray).t < 0 := by
  rw [candidateFor_obj]
  split_ifs with h <;> simp [h]

/-- One selection step preserves the loop invariant. -/
theorem selInv_step (l : List IntersectionInfo) (k : ℕ) (p : ℚ × ℕ)
    (hp : selInv l k p) (hk : k < l.length) :
    selInv l (k + 1) (selStep l p k) := by
  obtain ⟨h1, h2, h3, h4⟩ := hp
  unfold selStep selInv
  split_ifs with hb1 hb2
  · obtain ⟨hb1a, hb1b⟩ := hb1
    obtain ⟨hp0, hnone⟩ := h4 hb1a
    refine ⟨hk, rfl, ?_, ?_⟩
    · intro _
      refine ⟨Or.inr ⟨k, Nat.lt_succ_self k, hb1b⟩, ?_⟩
      intro j hj hjpos
      rcases Nat.lt_succ_iff_lt_or_eq.mp hj with hjk | rfl
      · exact absurd hjpos (hnone j hjk)
      · exact le_refl _
    · intro hneg
      exact absurd hb1b (by simpa using le_of_lt hneg)
  · obtain ⟨hb2a, hb2b⟩ := hb2
    have hppos : 0 < p.1 := lt_trans hb2b hb2a
    obtain ⟨hex, hmin⟩ := h3 hppos
    refine ⟨hk, rfl, ?_, ?_⟩
    · intro _
      constructor
      · rcases hex with h | ⟨j, hj, hjp⟩
        · exact Or.inl h
        · exact Or.inr ⟨j, Nat.lt_succ_of_lt hj, hjp⟩
      · intro j hj hjpos
        rcases Nat.lt_succ_iff_lt_or_eq.mp hj with hjk | rfl
        · exact le_trans (le_of_lt hb2a) (hmin j hjk hjpos)
        · exact le_refl _
    · intro hneg
      exact absurd hb2b (by simpa using le_of_lt hneg)
  · refine ⟨h1, h2, ?_, ?_⟩
    · intro hpos
      obtain ⟨hex, hmin⟩ := h3 hpos
      constructor
      · rcases hex with h | ⟨j, hj, hjp⟩
        · exact Or.inl h
        · exact Or.inr ⟨j, Nat.lt_succ_of_lt hj, hjp⟩
      · intro j hj hjpos
        rcases Nat.lt_succ_iff_lt_or_eq.mp hj with hjk | rfl
        · exact hmin j hjk hjpos
        · by_contra hlt
          exact hb2 ⟨lt_of_not_ge hlt, hjpos⟩
    · intro hneg
      obtain ⟨hp0, hnone⟩ := h4 hneg
      refine ⟨hp0, ?_⟩
      intro j hj
      rcases Nat.lt_succ_iff_lt_or_eq.mp hj with hjk | rfl
      · exact hnone j hjk
      · intro hkpos
        exact hb1 ⟨hneg, hkpos⟩

/-- The selection loop's invariant holds after any number of iterations. -/
theorem selLoop_inv (l : List IntersectionInfo) (hlen : 0 < l.length) :
    ∀ k, k ≤ l.length →
      selInv l k ((List.range k).foldl (selStep l) (tAt l 0, 0)) := by
  intro k
  induction k with
  | zero =>
    intro _
    exact ⟨hlen, rfl,
      fun hpos => ⟨Or.inl hpos, fun j hj => absurd hj (Nat.not_lt_zero j)⟩,
      fun _ => ⟨rfl, fun j hj => absurd hj (Nat.not_lt_zero j)⟩⟩
  | succ k ih =>
    intro hk1
    rw [List.range_succ, List.foldl_append, List.foldl_cons, List.foldl_nil]
    exact selInv_step l k _ (ih (by omega)) (by omega)

/-- C1, amended.  The claim fails when some candidate's `t` is exactly
`0` (see the counterexample); excluding that, it holds: for every ray
and non-empty scene in which no object's `Intersect` returns exactly
`0`, if some candidate has `t > 0` then `Raycast` returns the candidate
of a primitive with positive `t` that is minimal among all positive
candidates — the returned record is `candidateFor ray o`, carrying that
primitive (`obj = some o`) and the point and normal its `Intersect`
computed — and if no candidate has `t > 0` the returned record is the
all-null `missInfo`, whose `primitive` is `none`. -/
theorem raycast_nearest_hit (ray : Ray) (scene : Scene)
    (hne : scene.objects ≠ [])
    (hz : ∀ o ∈ scene.objects, (o.intersect ray).t ≠ 0) :
    ((∃ o ∈ scene.objects, 0 < (o.intersect ray).t) →
      ∃ (i : ℕ) (o : SceneObject), scene.objects[i]? = some o ∧
        Raycast ray scene = candidateFor ray o ∧
        0 < (o.intersect ray).t ∧
        (candidateFor ray o).obj = some o ∧
        ∀ o2 ∈ scene.objects, 0 < (o2.intersect ray).t →
          (o.intersect ray).t ≤ (o2.intersect ray).t) ∧
    ((∀ o ∈ scene.objects, ¬ 0 < (o.intersect ray).t) →
      Raycast ray scene = missInfo) := by
  have hlen : 0 < (intersectionsOf ray scene).length := by
    simpa [intersectionsOf, List.length_pos] using hne
  have hleneq : (intersectionsOf ray scene).length = scene.objects.length := by
    simp [intersectionsOf]
  have htAt : ∀ (i : ℕ) (o : SceneObject), scene.objects[i]? = some o →
      tAt (intersectionsOf ray scene) i = (o.intersect ray).t := by
    intro i o ho
    unfold tAt intersectionsOf
    rw [List.getElem?_map, ho]
    rfl
  have hli : ∀ (i : ℕ) (o : SceneObject), scene.objects[i]? = some o →
      (intersectionsOf ray scene)[i]? = some (candidateFor ray o) := by
    intro i o ho
    unfold intersectionsOf
    rw [List.getElem?_map, ho]
    rfl
  have hall : (intersectionsOf ray scene).all (fun c => c.obj.isNone) = true ↔
      ∀ o ∈ scene.objects, (o.intersect ray).t < 0 := by
    rw [List.all_eq_true]
    unfold intersectionsOf
    constructor
    · intro h o ho
      have hm := h (candidateFor ray o) (List.mem_map_of_mem _ ho)
      exact (candidateFor_obj_isNone ray o).mp (by simpa using hm)
    · intro h c hc
      obtain ⟨o, ho, rfl⟩ := List.mem_map.mp hc
      simpa using (candidateFor_obj_isNone ray o).mpr (h o ho)
  obtain ⟨c0, h0⟩ : ∃ c, (intersectionsOf ray scene)[0]? = some c := by
    rw [List.getElem?_eq_getElem hlen]
    exact ⟨_, rfl⟩
  have ht0 : c0.t = tAt (intersectionsOf ray scene) 0 := by
    unfold tAt
    rw [h0]
    rfl
  have hropt : RaycastOpt ray scene =
      if (intersectionsOf ray scene).all (fun c => c.obj.isNone) then some missInfo
      else (intersectionsOf ray scene)[(selLoop (intersectionsOf ray scene)
        c0.t).2]? := by
    unfold RaycastOpt
    rw [h0]
  by_cases hN : (intersectionsOf ray scene).all (fun c => c.obj.isNone) = true
  · have hneg := hall.mp hN
    constructor
    · rintro ⟨o, ho, hpos⟩
      exact absurd hpos (not_lt.mpr (le_of_lt (hneg o ho)))
    · intro _
      unfold Raycast
      rw [hropt, if_pos hN]
      rfl
  · constructor
    · intro hex
      have hinv := selLoop_inv (intersectionsOf ray scene) hlen
        (intersectionsOf ray scene).length (le_refl _)
      obtain ⟨hq1, hq2, hq3, hq4⟩ := hinv
      have hsel : selLoop (intersectionsOf ray scene) c0.t =
          (List.range (intersectionsOf ray scene).length).foldl
            (selStep (intersectionsOf ray scene))
            (tAt (intersectionsOf ray scene) 0, 0) := by
        unfold selLoop
        rw [ht0]
      set q := (List.range (intersectionsOf ray scene).length).foldl
        (selStep (intersectionsOf ray scene))
        (tAt (intersectionsOf ray scene) 0, 0) with hqdef
      have hq2len : q.2 < scene.objects.length := hleneq ▸ hq1
      obtain ⟨oq, hoq⟩ : ∃ o : SceneObject, scene.objects[q.2]? = some o :=
        ⟨_, List.getElem?_eq_getElem hq2len⟩
      have hoqmem : oq ∈ scene.objects := by
        rcases List.getElem?_eq_some.mp hoq with ⟨hlt, heq⟩
        exact heq ▸ List.getElem_mem hlt
      have hqt : q.1 = (oq.intersect ray).t := by
        rw [hq2, htAt q.2 oq hoq]
      have hqz : q.1 ≠ 0 := by
        rw [hqt]
        exact hz oq hoqmem
      have hqpos : 0 < q.1 := by
        rcases lt_or_gt_of_ne hqz with hlt | hgt
        · exfalso
          obtain ⟨_, hnoneall⟩ := hq4 hlt
          obtain ⟨o, ho, hpos⟩ := hex
          obtain ⟨j, hjlt, hjeq⟩ := List.getElem_of_mem ho
          have hoj : scene.objects[j]? = some o := by
            rw [List.getElem?_eq_getElem hjlt, hjeq]
          apply hnoneall j (hleneq ▸ hjlt)
          rw [htAt j o hoj]
          exact hpos
        · exact hgt
      refine ⟨q.2, oq, hoq, ?_, hqt ▸ hqpos, ?_, ?_⟩
      · unfold Raycast
        rw [hropt, if_neg hN, hsel, hli q.2 oq hoq]
        rfl
      · rw [candidateFor_obj, if_neg (not_lt.mpr (le_of_lt (hqt ▸ hqpos)))]
      · intro o2 ho2 hpos2
        obtain ⟨j, hjlt, hjeq⟩ := List.getElem_of_mem ho2
        have hoj : scene.objects[j]? = some o2 := by
          rw [List.getElem?_eq_getElem hjlt, hjeq]
        have hmin := (hq3 hqpos).2 j (hleneq ▸ hjlt)
          (by rw [htAt j o2 hoj]; exact hpos2)
        rw [hqt, htAt j o2 hoj] at hmin
        exact hmin
    · intro hnone
      exfalso
      apply hN
      rw [hall]
      intro o ho
      rcases (hz o ho).lt_or_lt with h | h
      · exact h
      · exact absurd h (hnone o ho)

/-- C1, counterexample.  In `sceneZeroFive` the first candidate has
`t = 0` (so its `obj` is non-null and `noIntersection` is false) and the
second has `t = 5 > 0`.  The selection loop starts with
`shortestDistance = 0`, and both update guards require
`shortestDistance < 0` or `shortestDistance > t`, so no update ever
happens: `Raycast` returns the first candidate with `t = 0` and its
primitive — although a candidate with `t = 5 > 0` exists.  This violates
both "among candidates with `t > 0` the smallest is selected" and "a
candidate with `t ≤ 0` is never the selected result". -/
theorem raycast_zero_candidate_counterexample :
    (Raycast rayZ sceneZeroFive).t = 0 ∧
    (Raycast rayZ sceneZeroFive).obj.isSome ∧
    objConst 5 ∈ sceneZeroFive.objects ∧
    0 < ((objConst 5).intersect rayZ).t := by
  refine ⟨by with_unfolding_all decide, by with_unfolding_all decide, ?_,
    by with_unfolding_all decide⟩
  exact List.mem_cons_of_mem _ (List.mem_cons_self _ _)

/-- C1, witness for the amended theorem in `sceneFiveThree` (candidates
`5` and `3`, nearest positive `3`). -/
theorem raycast_nearest_hit_witness :
    ∃ (i : ℕ) (o : SceneObject), sceneFiveThree.objects[i]? = some o ∧
      Raycast rayZ sceneFiveThree = candidateFor rayZ o ∧
      0 < (o.intersect rayZ).t ∧
      (candidateFor rayZ o).obj = some o ∧
      ∀ o2 ∈ sceneFiveThree.objects, 0 < (o2.intersect rayZ).t →
        (o.intersect rayZ).t ≤ (o2.intersect rayZ).t :=
  (raycast_nearest_hit rayZ sceneFiveThree (List.cons_ne_nil _ _)
    (by with_unfolding_all decide)).1
    ⟨objConst 5, List.mem_cons_self _ _, by with_unfolding_all decide⟩

/-! ## C6: accumulation of lighting terms -/

/-- Unfolding one body execution of `RayTraceFuel` on a hit. -/
theorem rayTraceFuel_succ_hit (ops : MathOps) (fuel : ℕ) (ray : Ray) (scene : Scene)
    (camera : Camera) (d : ℤ) (obj : SceneObject)
    (hobj : (Raycast ray scene).obj = some obj) :
    RayTraceFuel ops (fuel + 1) ray scene camera d =
      (scene.lights.foldl
        (lightStep ops scene camera (Raycast ray scene) obj d
          (fun r => RayTraceFuel ops fuel r scene camera (d - 1)))
        initState).finalColor := by
  conv_lhs => rw [RayTraceFuel]
  rw [hobj]

/-- C6, amended.  The claimed decomposition — summed ambients divided by
the light count, plus undivided diffuse and specular sums, plus the
reflection contributions — holds for scenes with exactly one light
(where the loop tail's re-summation is harmless): on a hit, the colour
is the ambient term (divided by the count 1), plus — when the light is
unoccluded — the diffuse and specular terms and, for `maxDepth ≥ 0`,
`Kr` times the recursive reflection colour; an occluded light
contributes its ambient term only.  (For two or more lights the loop
tail re-adds the accumulated lists on every iteration and the claimed
formula fails, see the counterexample.) -/
theorem raytrace_single_light (ops : MathOps) (ray : Ray) (scene : Scene)
    (camera : Camera) (d : ℤ) (light : Light) (obj : SceneObject)
    (hl : scene.lights = [light])
    (hobj : (Raycast ray scene).obj = some obj) :
    (light.position.w = 1 →
      RayTrace ops ray scene camera d =
        (if (Raycast (pointShadowRay ops (Raycast ray scene) light) scene).obj.isNone ∨
            pointDistance ops (Raycast ray scene) light <
              (Raycast (pointShadowRay ops (Raycast ray scene) light) scene).t then
          (if 0 ≤ d then
            reflectKr obj *
              RayTrace ops (reflectionRayOf (Raycast ray scene)) scene camera (d - 1)
          else 0) +
          pointAmbient ops (Raycast ray scene) obj light +
          pointDiffuse ops (Raycast ray scene) obj light +
          pointSpecular ops camera (Raycast ray scene) obj light
        else pointAmbient ops (Raycast ray scene) obj light)) ∧
    (light.position.w = 0 →
      RayTrace ops ray scene camera d =
        (if (Raycast (dirShadowRay ops (Raycast ray scene) light) scene).obj.isNone then
          (if 0 ≤ d then
            reflectKr obj *
              RayTrace ops (reflectionRayOf (Raycast ray scene)) scene camera (d - 1)
          else 0) +
          dirAmbient obj light +
          dirDiffuse ops (Raycast ray scene) obj light +
          dirSpecular ops camera (Raycast ray scene) obj light
        else dirAmbient obj light)) := by
  have hrec : 0 ≤ d →
      RayTraceFuel ops ((d + 1).toNat) (reflectionRayOf (Raycast ray scene))
          scene camera (d - 1) =
        RayTrace ops (reflectionRayOf (Raycast ray scene)) scene camera (d - 1) := by
    intro hd0
    unfold RayTrace
    rw [show (d - 1 + 1).toNat + 1 = (d + 1).toNat by omega]
  have hbody : RayTrace ops ray scene camera d =
      (lightStep ops scene camera (Raycast ray scene) obj d
        (fun r => RayTraceFuel ops ((d + 1).toNat) r scene camera (d - 1))
        initState light).finalColor := by
    unfold RayTrace
    rw [rayTraceFuel_succ_hit ops ((d + 1).toNat) ray scene camera d obj hobj, hl,
      List.foldl_cons, List.foldl_nil]
  constructor
  · intro hw
    rw [hbody]
    simp only [lightStep]
    rw [if_pos hw]
    split_ifs with hlit hd0
    · rw [hrec hd0]
      simp only [resumStep, initState]
      simp
    · simp only [resumStep, initState]
      simp
    · simp only [resumStep, initState]
      simp
  · intro hw
    have hw1 : light.position.w ≠ 1 := by
      rw [hw]
      norm_num
    rw [hbody]
    simp only [lightStep]
    rw [if_neg hw1, if_pos hw]
    split_ifs with hlit hd0
    · rw [hrec hd0]
      simp only [resumStep, initState]
      simp
    · simp only [resumStep, initState]
      simp
    · simp only [resumStep, initState]
      simp

/-- C6, counterexample.  In `sceneTwoDir` both directional lights are
occluded (the scene's one object reports a hit for every shadow ray), so
under the claim the colour would be the two ambient terms summed and
divided by the light count 2, with zero diffuse, specular and reflection
contributions: `(amb + amb) / 2 = (1,1,1)`.  The code instead re-sums
the ambient list in every loop iteration (`finalColor` picks up
`amb` on the first iteration and `2·amb/2 + amb/2`-style totals on the
second), returning `(5/2, 5/2, 5/2)`. -/
theorem raytrace_two_lights_counterexample :
    RayTrace ops1 rayZ sceneTwoDir camZ (-1) ≠
      (dirAmbient (objConst 2) lightD + dirAmbient (objConst 2) lightD) / (2 : ℚ) := by
  with_unfolding_all decide

/-- C6, witness for the amended theorem: the one-point-light scene at
depth 0 evaluates, through the theorem's decomposition, to `(5,5,5)` —
reflection `(5/2,5/2,5/2)` plus ambient `(1,1,1)` plus diffuse
`(1/2,1/2,1/2)` plus specular `(1,1,1)`. -/
theorem raytrace_single_light_witness :
    RayTrace ops1 rayZ sceneRefl camZ 0 = ⟨5, 5, 5⟩ := by
  have h := (raytrace_single_light ops1 rayZ sceneRefl camZ 0 lightP (objConst 2)
    rfl (by with_unfolding_all rfl)).1 rfl
  rw [h]
  with_unfolding_all decide
